import Mathlib

/-!
Verification development for the markdown-browser overlay (`MdsBrowser.tsx`)
and the Drive storage client (`driveManager.ts`).

The source is embedded shallowly: pure computations become Lean functions,
the React component's state updates become an explicit step function on a
state record, and the effectful Drive operations become functions over an
environment of operation outcomes, returning a result together with the
list of observable events they emit.

JavaScript strings are modelled as Lean `String`; the string operations the
source uses (`endsWith`, `toLowerCase`, comparator order) are defined over
the underlying character list so that they compute by kernel reduction.
`localeCompare` is modelled as lexicographic order on code points.
-/

/-- JavaScript `s.endsWith(suffix)`: the character sequence of `suffix`
is a suffix of the character sequence of `s`. -/
def jsEndsWith (s suffix : String) : Bool :=
  suffix.data.isSuffixOf s.data

/-- JavaScript `s.toLowerCase()`, modelled as per-character lowercasing. -/
def jsToLower (s : String) : String :=
  ⟨s.data.map Char.toLower⟩

/-- Strict lexicographic order on character lists (code-point order),
modelling the order induced by the source's `localeCompare` comparator. -/
def charListLT : List Char → List Char → Bool
  | [], [] => false
  | [], _ :: _ => true
  | _ :: _, [] => false
  | a :: as, b :: bs => a < b || (a == b && charListLT as bs)

/-- Strict lexicographic order on strings. -/
def strLT (a b : String) : Bool :=
  charListLT a.data b.data

/-- Reflexive lexicographic order on strings. -/
def strLE (a b : String) : Bool :=
  !(strLT b a)

/-- One browsable item (`interface FileEntry` in `MdsBrowser.tsx`):
a path (or display name), a categorical tag, and an optional Drive id. -/
structure FileEntry where
  path : String
  type : String
  id : Option String := none
deriving DecidableEq, Repr

/-- Classification of a local path (`MdsBrowser.tsx` lines 62-75): a path
registered as an agent-definition backing file, or whose lowercased form
ends in `agents.md` or `.agents`, is an `Agent`; otherwise `Memory`. -/
def classify (agentPaths : List String) (p : String) : String :=
  let lower := jsToLower p
  if agentPaths.contains p
      || jsEndsWith lower "agents.md"
      || jsEndsWith lower ".agents" then "Agent" else "Memory"

/-- The sort comparator of `localFiles` (`MdsBrowser.tsx` lines 77-80), as
the predicate "a may precede b": distinct types compare by type, equal
types compare by path. -/
def entryLE (a b : FileEntry) : Bool :=
  if a.type = b.type then strLE a.path b.path else strLT a.type b.type

/-- The `localFiles` memo (`MdsBrowser.tsx` lines 48-81): union the known
memory-file paths with the registered agent backing paths (the JS `Set`
collapses duplicates, keeping first occurrences), classify each path, and
sort by the comparator. -/
def localFiles (memoryFiles agentPaths : List String) : List FileEntry :=
  let allPaths := (memoryFiles ++ agentPaths).dedup
  (allPaths.map fun p => { path := p, type := classify agentPaths p }).mergeSort entryLE

/-- `availableHeight` (`MdsBrowser.tsx` line 279):
`Math.max(5, terminalHeight - 10)`. -/
def availableHeight (terminalHeight : ℤ) : ℤ :=
  max 5 (terminalHeight - 10)

/-- The scroll window (`MdsBrowser.tsx` lines 280-287):
`startIdx = Math.max(0, Math.min(activeIndex - Math.floor(h / 2), files.length - h))`,
`endIdx = startIdx + h`.  Integer division by 2 in Lean agrees with
JavaScript `Math.floor` for the nonnegative heights the code produces. -/
def computeScrollWindow (vh cursor len : ℤ) : ℤ × ℤ :=
  let start := max 0 (min (cursor - vh / 2) (len - vh))
  (start, start + vh)

/-- `visibleFiles = files.slice(startIdx, endIdx)`
(`MdsBrowser.tsx` line 288). -/
def visibleFiles (l : List FileEntry) (vh cursor : ℤ) : List FileEntry :=
  let w := computeScrollWindow vh cursor (l.length : ℤ)
  (l.drop w.1.toNat).take (w.2.toNat - w.1.toNat)

/-- The MOVE_DOWN handler (`MdsBrowser.tsx` lines 243-245):
`Math.min(prev + 1, Math.max(0, files.length - 1))`. -/
def moveDown (len idx : ℤ) : ℤ :=
  min (idx + 1) (max 0 (len - 1))

/-- The MOVE_UP handler (`MdsBrowser.tsx` line 252):
`Math.max(prev - 1, 0)`. -/
def moveUp (idx : ℤ) : ℤ :=
  max (idx - 1) 0

/-- Which source is being browsed (`viewMode` state). -/
inductive ViewMode
  | localView
  | driveView
deriving DecidableEq, Repr

/-- Flip Local/Remote (`prev === 'local' ? 'drive' : 'local'`). -/
def ViewMode.toggle : ViewMode → ViewMode
  | .localView => .driveView
  | .driveView => .localView

/-- One remote file record returned by the Drive list call. -/
structure RemoteFile where
  id : String
  name : String
deriving DecidableEq, Repr

/-- The component's mutable state (`MdsBrowser.tsx` lines 43-46). -/
structure UiState where
  activeIndex : ℤ
  viewMode : ViewMode
  driveFiles : List FileEntry
  isDriveLoading : Bool
deriving DecidableEq, Repr

/-- Observable events of the browsing state machine. -/
inductive UiEvent
  | fetchStarted
  | feedback (level msg : String)
deriving DecidableEq, Repr

/-- The discrete occurrences that mutate the browsing state: the
IMPORT_FROM_DRIVE key, an execution of the drive-fetch effect body, the
settling of a pending list fetch, and the cursor keys. -/
inductive UiAction
  | importFromDrive
  | driveEffect
  | fetchResolved (fs : List RemoteFile)
  | fetchRejected (errMsg : String)
  | moveDownKey
  | moveUpKey
deriving DecidableEq, Repr

/-- One transition of the browsing state machine, returning the new state
and the events emitted.

* `importFromDrive` (`MdsBrowser.tsx` lines 233-237): flip the view mode
  and reset the cursor to 0.
* `driveEffect` (lines 83-103): if the view is `drive`, the cached drive
  list is empty and no fetch is loading, set the loading flag and start a
  fetch; otherwise do nothing.
* `fetchResolved` (lines 89-93): a pending fetch resolves; the results
  are cached tagged `Drive` with their ids, and the `finally` clears the
  loading flag.  No fetch can settle when none is in flight.
* `fetchRejected` (lines 94-100): a pending fetch rejects; one error
  feedback event carries the message, and the `finally` clears the
  loading flag.
* cursor keys (lines 239-254): clamp the cursor within the active list. -/
def step (localFs : List FileEntry) (s : UiState) : UiAction → UiState × List UiEvent
  | .importFromDrive =>
      ({ s with viewMode := s.viewMode.toggle, activeIndex := 0 }, [])
  | .driveEffect =>
      if s.viewMode = .driveView ∧ s.driveFiles.length = 0 ∧ s.isDriveLoading = false then
        ({ s with isDriveLoading := true }, [.fetchStarted])
      else (s, [])
  | .fetchResolved fs =>
      if s.isDriveLoading then
        ({ s with
            driveFiles := fs.map fun f => { path := f.name, type := "Drive", id := some f.id },
            isDriveLoading := false }, [])
      else (s, [])
  | .fetchRejected e =>
      if s.isDriveLoading then
        ({ s with isDriveLoading := false },
          [.feedback "error" ("[MdsBrowser] Failed to list Drive files: " ++ e)])
      else (s, [])
  | .moveDownKey =>
      let files := match s.viewMode with
        | .localView => localFs
        | .driveView => s.driveFiles
      ({ s with activeIndex := moveDown (files.length : ℤ) s.activeIndex }, [])
  | .moveUpKey =>
      ({ s with activeIndex := moveUp s.activeIndex }, [])

/-- Run a sequence of actions from a state, collecting emitted events. -/
def run (localFs : List FileEntry) (s : UiState) : List UiAction → UiState × List UiEvent
  | [] => (s, [])
  | a :: rest =>
      let r := step localFs s a
      let r' := run localFs r.1 rest
      (r'.1, r.2 ++ r'.2)

/-- Observable events of the open-in-editor action. -/
inductive EditorEvent
  | rawModeSet (enabled : Bool)
  | feedbackError (msg : String)
  | editorClosed
deriving DecidableEq, Repr

/-- Outcome of the synchronous editor spawn (`spawnSync`): either the
spawn itself failed (`error` set), or the child exited with a status that
may be absent (`null`). -/
inductive SpawnResult
  | spawnError (msg : String)
  | exited (status : Option ℤ)
deriving DecidableEq, Repr

/-- The exit paths of `openFileInEditor` that count as failures: a spawn
error, or a present non-zero exit status. -/
def isEditorFailure : SpawnResult → Bool
  | .spawnError _ => true
  | .exited (some n) => n ≠ 0
  | .exited none => false

/-- The try/catch/finally body of `openFileInEditor`
(`MdsBrowser.tsx` lines 130-148) as its emitted event sequence: raw mode
is switched off, the editor runs; a spawn error or a present non-zero
status is thrown and caught, emitting one error feedback event; the
`finally` block restores raw mode and signals the editor closed. -/
def openFileInEditor (res : SpawnResult) : List EditorEvent :=
  [.rawModeSet false]
    ++ (if isEditorFailure res then
          [.feedbackError "[MdsBrowser] external editor error"] else [])
    ++ [.rawModeSet true, .editorClosed]

/-- Outcomes of the external operations `DriveManager` performs, indexed
by their arguments: the OAuth client acquisition, folder lookup, folder
creation, and the file list inside a folder. -/
structure DriveEnv where
  oauthClient : Except String Unit
  findFolderResult : String → String → Except String (Option String)
  createFolderResult : String → String → Except String String
  listInFolder : String → Except String (List RemoteFile)

/-- `DriveManager.getDriveClient` (`driveManager.ts` lines 24-29):
acquires the OAuth client; its failure is the client's failure. -/
def getDriveClient (env : DriveEnv) : Except String Unit :=
  env.oauthClient

/-- `DriveManager.getOrCreateWorkspaceFolder` (`driveManager.ts` lines
34-68): find or create `gemini-cli` under the root, then find or create
`md-files` inside it. -/
def getOrCreateWorkspaceFolder (env : DriveEnv) : Except String String := do
  let _ ← getDriveClient env
  let g ← (match ← env.findFolderResult "gemini-cli" "root" with
    | some fid => pure fid
    | none => env.createFolderResult "gemini-cli" "root")
  let m ← (match ← env.findFolderResult "md-files" g with
    | some fid => pure fid
    | none => env.createFolderResult "md-files" g)
  pure m

/-- The body of the `try` block of `DriveManager.listFiles`
(`driveManager.ts` lines 156-164): resolve the workspace folder, then
list the files it contains. -/
def listFilesTryBody (env : DriveEnv) : Except String (List RemoteFile) := do
  let folderId ← getOrCreateWorkspaceFolder env
  env.listInFolder folderId

/-- `DriveManager.listFiles` (`driveManager.ts` lines 154-169).  The
`getDriveClient` call stands before the `try` block, so its error
propagates; the folder resolution and the list request stand inside the
`try`, whose `catch` logs a warning (the boolean) and returns `[]`. -/
def listFiles (env : DriveEnv) : Except String (List RemoteFile) × Bool :=
  match getDriveClient env with
  | .error e => (.error e, false)
  | .ok _ =>
    match listFilesTryBody env with
    | .error _ => (.ok [], true)
    | .ok fs => (.ok fs, false)

/-- An environment in which OAuth-client acquisition fails and every
other Drive operation succeeds. -/
def badAuthEnv : DriveEnv where
  oauthClient := .error "auth failed"
  findFolderResult := fun _ _ => .ok (some "folder")
  createFolderResult := fun _ _ => .ok "folder"
  listInFolder := fun _ => .ok []

/-- `path.join(a, b)` for the simple two-segment joins the source makes. -/
def pathJoin (a b : String) : String :=
  a ++ "/" ++ b

/-- The destination-directory decision of `DriveManager.downloadFile`
(`driveManager.ts` lines 183-185): a file name ending in the exact
suffix `.AGENTS` goes under `<globalGeminiDir>/skills`, anything else to
the current working directory. -/
def downloadDestDir (globalGeminiDir cwd fileName : String) : String :=
  if jsEndsWith fileName ".AGENTS" then pathJoin globalGeminiDir "skills" else cwd

/-- Filesystem events emitted by `downloadFile`. -/
inductive FsEvent
  | mkdirRecursive (dir : String)
  | fileWritten (p : String) (content : String)
deriving DecidableEq, Repr

/-- `DriveManager.downloadFile` (`driveManager.ts` lines 174-197) after
the media fetch succeeded with `content`: choose the destination
directory, create it recursively, write the file there, and return the
joined local path. -/
def downloadFile (globalGeminiDir cwd fileName content : String) :
    String × List FsEvent :=
  let destDir := downloadDestDir globalGeminiDir cwd fileName
  let localFilePath := pathJoin destDir fileName
  (localFilePath, [.mkdirRecursive destDir, .fileWritten localFilePath content])

/-- Claim C3: the scroll window start equals
`clamp(cursorIndex - floor(viewportHeight/2), 0, max(0, listLength - viewportHeight))`
and the end is `start + viewportHeight`; when the list is at least as long
as the viewport the start is nonnegative and the end does not exceed the
list length; when the list is shorter than the viewport the start is 0;
and with viewport 10 and cursor 50 in a 200-item list the window is
`[45, 55)`. -/
theorem mds_C3 (vh cursor len : ℤ) :
    (computeScrollWindow vh cursor len).1
        = max 0 (min (cursor - vh / 2) (max 0 (len - vh))) ∧
    (computeScrollWindow vh cursor len).2
        = (computeScrollWindow vh cursor len).1 + vh ∧
    (vh ≤ len → 0 ≤ (computeScrollWindow vh cursor len).1 ∧
      (computeScrollWindow vh cursor len).2 ≤ len) ∧
    (len < vh → (computeScrollWindow vh cursor len).1 = 0) ∧
    computeScrollWindow 10 50 200 = (45, 55) := by
  refine ⟨?_, rfl, fun h => ⟨?_, ?_⟩, fun h => ?_, by decide⟩ <;>
    simp only [computeScrollWindow] <;> omega

/-- Claim C3 witness: the theorem instantiated at viewport 10, cursor 50,
list length 200. -/
theorem mds_C3_witness :
    (10 : ℤ) ≤ 200 ∧ 0 ≤ (computeScrollWindow 10 50 200).1 ∧
      (computeScrollWindow 10 50 200).2 ≤ 200 :=
  ⟨by decide, ((mds_C3 10 50 200).2.2.1 (by decide)).1,
    ((mds_C3 10 50 200).2.2.1 (by decide)).2⟩

/-- Claim C10: for a cursor inside the list and a positive viewport
height, the scroll window contains the cursor, so the rendered slice
includes the selected row; and when the list is shorter than the viewport
the rendered slice is the whole list. -/
theorem mds_C10 (l : List FileEntry) (vh cursor : ℤ) (h1 : 1 ≤ vh)
    (h0 : 0 ≤ cursor) (hc : cursor < (l.length : ℤ)) :
    ((computeScrollWindow vh cursor (l.length : ℤ)).1 ≤ cursor ∧
      cursor < (computeScrollWindow vh cursor (l.length : ℤ)).2) ∧
    ((l.length : ℤ) < vh → visibleFiles l vh cursor = l) := by
  constructor
  · constructor <;> simp only [computeScrollWindow] <;> omega
  · intro h
    have hs : max 0 (min (cursor - vh / 2) ((l.length : ℤ) - vh)) = 0 := by omega
    simp only [visibleFiles, computeScrollWindow, hs]
    rw [show ((0 : ℤ).toNat = 0) from rfl, List.drop_zero]
    exact List.take_of_length_le (by omega)

/-- Claim C10 witness: the theorem instantiated at a three-element list,
viewport 5, cursor 1; the slice is the entire list. -/
theorem mds_C10_witness :
    (1 : ℤ) ≤ 5 ∧ 0 ≤ (1 : ℤ) ∧ (1 : ℤ) <
      (([{ path := "a", type := "Memory" }, { path := "b", type := "Memory" },
          { path := "c", type := "Memory" }] : List FileEntry).length : ℤ) ∧
    visibleFiles [{ path := "a", type := "Memory" }, { path := "b", type := "Memory" },
        { path := "c", type := "Memory" }] 5 1 =
      [{ path := "a", type := "Memory" }, { path := "b", type := "Memory" },
        { path := "c", type := "Memory" }] :=
  ⟨by decide, by decide, by decide,
    (mds_C10 [{ path := "a", type := "Memory" }, { path := "b", type := "Memory" },
        { path := "c", type := "Memory" }] 5 1 (by decide) (by decide) (by decide)).2
      (by decide)⟩

/-- Claim C9: cursor movement is idempotent at the boundaries: any number
of move-up steps at index 0 stays at 0, and any number of move-down steps
at the last index of a nonempty list stays at the last index. -/
theorem mds_C9 (len : ℤ) (n : ℕ) (h : 1 ≤ len) :
    moveUp^[n] 0 = 0 ∧ (moveDown len)^[n] (len - 1) = len - 1 := by
  constructor
  · exact Function.iterate_fixed (by simp only [moveUp]; omega) n
  · exact Function.iterate_fixed (by simp only [moveDown]; omega) n

/-- Claim C9 witness: the theorem instantiated at list length 3 and two
repetitions. -/
theorem mds_C9_witness :
    (1 : ℤ) ≤ 3 ∧ moveUp^[2] 0 = 0 ∧ (moveDown 3)^[2] (3 - 1) = 3 - 1 :=
  ⟨by decide, mds_C9 3 2 (by decide)⟩

/-- Claim C7: on every exit path of the open-in-editor action (clean
exit, non-zero exit, spawn failure) the event sequence ends by restoring
raw-input mode, and on the two failure paths an error feedback event is
emitted. -/
theorem mds_C7 (res : SpawnResult) :
    (∃ mid, openFileInEditor res =
      [EditorEvent.rawModeSet false] ++ mid ++
        [EditorEvent.rawModeSet true, EditorEvent.editorClosed]) ∧
    (isEditorFailure res = true →
      EditorEvent.feedbackError "[MdsBrowser] external editor error"
        ∈ openFileInEditor res) := by
  refine ⟨⟨if isEditorFailure res then
      [EditorEvent.feedbackError "[MdsBrowser] external editor error"] else [], rfl⟩,
    fun h => ?_⟩
  simp [openFileInEditor, h]

/-- Claim C7 witness: the theorem instantiated at a spawn failure. -/
theorem mds_C7_witness :
    isEditorFailure (SpawnResult.spawnError "ENOENT") = true ∧
    EditorEvent.feedbackError "[MdsBrowser] external editor error"
      ∈ openFileInEditor (SpawnResult.spawnError "ENOENT") :=
  ⟨by decide, (mds_C7 (SpawnResult.spawnError "ENOENT")).2 (by decide)⟩

/-- Claim C1 counterexample: the claim says the agent-marker suffix check
is case-insensitive, so the name `spec.agents` would be written under the
skills directory; but `downloadFile` tests the exact suffix `.AGENTS`, so
`spec.agents` is written to the working directory instead. -/
theorem mds_C1_counterexample :
    downloadDestDir "/home/u/.gemini" "/work" "spec.agents" = "/work" ∧
    "/work" ≠ pathJoin "/home/u/.gemini" "skills" ∧
    (downloadFile "/home/u/.gemini" "/work" "spec.agents" "content").1
      = "/work/spec.agents" := by
  refine ⟨by decide, by decide, by decide⟩

/-- Claim C1 (amended): for every remote entry whose display name ends
with the exact, case-sensitive suffix `.AGENTS`, `downloadFile` writes
the file under the per-user skills directory; for every other name it
writes to the process's current working directory; in both cases the
destination directory is created recursively and the returned path is
the destination directory joined with the file name. -/
theorem mds_C1 (g cwd fileName content : String) :
    (jsEndsWith fileName ".AGENTS" = true →
      downloadDestDir g cwd fileName = pathJoin g "skills") ∧
    (jsEndsWith fileName ".AGENTS" = false →
      downloadDestDir g cwd fileName = cwd) ∧
    (downloadFile g cwd fileName content).1
        = pathJoin (downloadDestDir g cwd fileName) fileName ∧
    FsEvent.mkdirRecursive (downloadDestDir g cwd fileName)
        ∈ (downloadFile g cwd fileName content).2 := by
  refine ⟨fun h => ?_, fun h => ?_, rfl, ?_⟩
  · simp [downloadDestDir, h]
  · simp [downloadDestDir, h]
  · simp [downloadFile]

/-- Claim C1 witness: the amended theorem instantiated at the name
`a.AGENTS`, which goes to the skills directory. -/
theorem mds_C1_witness :
    jsEndsWith "a.AGENTS" ".AGENTS" = true ∧
    downloadDestDir "/home/u/.gemini" "/work" "a.AGENTS"
      = pathJoin "/home/u/.gemini" "skills" :=
  ⟨by decide, (mds_C1 "/home/u/.gemini" "/work" "a.AGENTS" "c").1 (by decide)⟩

/-- Claim C2 counterexample: the claim says every error during a remote
list operation is caught and the call resolves with the empty list; but
`getDriveClient` is called before the `try` block, so an OAuth failure
makes `listFiles` reject instead of resolving with `[]`. -/
theorem mds_C2_counterexample :
    (listFiles badAuthEnv).1 = Except.error "auth failed" ∧
    (listFiles badAuthEnv).1 ≠ Except.ok [] :=
  ⟨rfl, fun h => nomatch h⟩

/-- Claim C2 (amended): an error raised while obtaining the drive client
propagates out of `listFiles`; once the client is obtained, every error
raised during folder resolution or the list request is caught and logged
and `listFiles` resolves with the empty list, so it never rejects. -/
theorem mds_C2 (env : DriveEnv) :
    (∀ e, env.oauthClient = .error e → (listFiles env).1 = .error e) ∧
    (env.oauthClient = .ok () →
      (∀ e, listFilesTryBody env = .error e → listFiles env = (.ok [], true)) ∧
      ∃ fs, (listFiles env).1 = .ok fs) := by
  constructor
  · intro e he
    simp [listFiles, getDriveClient, he]
  · intro hok
    constructor
    · intro e he
      simp [listFiles, getDriveClient, hok, he]
    · rcases h : listFilesTryBody env with e | fs
      · exact ⟨[], by simp [listFiles, getDriveClient, hok, h]⟩
      · exact ⟨fs, by simp [listFiles, getDriveClient, hok, h]⟩

/-- Claim C2 witness: the amended theorem instantiated at the failing
OAuth environment. -/
theorem mds_C2_witness :
    badAuthEnv.oauthClient = Except.error "auth failed" ∧
    (listFiles badAuthEnv).1 = Except.error "auth failed" :=
  ⟨rfl, (mds_C2 badAuthEnv).1 "auth failed" rfl⟩

/-- Helper for the fetch-gating invariant: from a state with a populated
drive cache and no fetch in flight, every single action keeps the cache
populated, keeps the loading flag clear, and starts no fetch. -/
theorem step_keeps_populated (localFs : List FileEntry) (s : UiState) (a : UiAction)
    (h1 : s.driveFiles ≠ []) (h2 : s.isDriveLoading = false) :
    (step localFs s a).1.driveFiles ≠ [] ∧
    (step localFs s a).1.isDriveLoading = false ∧
    UiEvent.fetchStarted ∉ (step localFs s a).2 := by
  cases a with
  | importFromDrive => exact ⟨h1, h2, by simp [step]⟩
  | driveEffect =>
      rw [step, if_neg]
      · exact ⟨h1, h2, by simp⟩
      · rintro ⟨-, hl, -⟩
        exact h1 (List.length_eq_zero.mp hl)
  | fetchResolved fs =>
      simp only [step]
      rw [if_neg (by simp [h2])]
      exact ⟨h1, h2, by simp⟩
  | fetchRejected e =>
      simp only [step]
      rw [if_neg (by simp [h2])]
      exact ⟨h1, h2, by simp⟩
  | moveDownKey => exact ⟨h1, h2, by simp [step]⟩
  | moveUpKey => exact ⟨h1, h2, by simp [step]⟩

/-- Helper: from a state with a populated drive cache and no fetch in
flight, no sequence of actions ever starts a fetch. -/
theorem run_no_fetch (localFs : List FileEntry) :
    ∀ (acts : List UiAction) (s : UiState), s.driveFiles ≠ [] →
      s.isDriveLoading = false →
      UiEvent.fetchStarted ∉ (run localFs s acts).2
  | [], s, _, _ => by simp [run]
  | a :: rest, s, h1, h2 => by
      obtain ⟨k1, k2, k3⟩ := step_keeps_populated localFs s a h1 h2
      simp only [run, List.mem_append, not_or]
      exact ⟨k3, run_no_fetch localFs rest _ k1 k2⟩

/-- Claim C5: toggling the source resets the cursor to 0 and flips the
view mode; a fetch is started only by the effect body, and only when the
active source is the remote one, the cached remote list is empty and no
fetch is in flight; consequently once the remote cache is populated (and
no fetch is in flight), no later sequence of actions starts another
fetch. -/
theorem mds_C5 (localFs : List FileEntry) (s : UiState) :
    ((step localFs s .importFromDrive).1.activeIndex = 0 ∧
      (step localFs s .importFromDrive).1.viewMode = s.viewMode.toggle) ∧
    (∀ a, UiEvent.fetchStarted ∈ (step localFs s a).2 →
      a = .driveEffect ∧ s.viewMode = .driveView ∧ s.driveFiles = [] ∧
        s.isDriveLoading = false) ∧
    (∀ acts, s.driveFiles ≠ [] → s.isDriveLoading = false →
      UiEvent.fetchStarted ∉ (run localFs s acts).2) := by
  refine ⟨⟨rfl, rfl⟩, fun a ha => ?_, fun acts h1 h2 => run_no_fetch localFs acts s h1 h2⟩
  cases a with
  | importFromDrive => simp [step] at ha
  | driveEffect =>
      rw [step] at ha
      split at ha
      · rename_i hg
        exact ⟨rfl, hg.1, List.length_eq_zero.mp hg.2.1, hg.2.2⟩
      · simp at ha
  | fetchResolved fs =>
      rw [step] at ha
      split at ha <;> simp at ha
  | fetchRejected e =>
      rw [step] at ha
      split at ha <;> simp at ha
  | moveDownKey => simp [step] at ha
  | moveUpKey => simp [step] at ha

/-- Claim C5 witness: the theorem instantiated at a state whose remote
cache is already populated; a toggle back and forth followed by the
effect body starts no fetch. -/
theorem mds_C5_witness :
    (UiState.mk 0 .driveView [FileEntry.mk "doc.md" "Drive" (some "1")]
        false).driveFiles ≠ [] ∧
    UiEvent.fetchStarted ∉
      (run [] (UiState.mk 0 .driveView [FileEntry.mk "doc.md" "Drive" (some "1")] false)
        [.importFromDrive, .importFromDrive, .driveEffect]).2 :=
  ⟨by decide,
    (mds_C5 [] (UiState.mk 0 .driveView
        [FileEntry.mk "doc.md" "Drive" (some "1")] false)).2.2
      [.importFromDrive, .importFromDrive, .driveEffect] (by decide) rfl⟩

/-- Claim C6: when a pending remote fetch fails, exactly one error-level
feedback event carrying the failure message is emitted, the remote cache
stays empty, and the loading flag is cleared; the loading flag is cleared
on every outcome, success or failure; and because the cache stays empty a
later switch back to the remote source starts the fetch again. -/
theorem mds_C6 (localFs : List FileEntry) (s : UiState) (e : String)
    (hl : s.isDriveLoading = true) (he : s.driveFiles = []) :
    (step localFs s (.fetchRejected e)).2
        = [.feedback "error" ("[MdsBrowser] Failed to list Drive files: " ++ e)] ∧
    (step localFs s (.fetchRejected e)).1.driveFiles = [] ∧
    (step localFs s (.fetchRejected e)).1.isDriveLoading = false ∧
    (∀ fs, (step localFs s (.fetchResolved fs)).1.isDriveLoading = false) ∧
    (∀ e', (step localFs s (.fetchRejected e')).1.isDriveLoading = false) ∧
    (s.viewMode = .driveView →
      UiEvent.fetchStarted ∈
        (run localFs (step localFs s (.fetchRejected e)).1
          [.importFromDrive, .importFromDrive, .driveEffect]).2) := by
  refine ⟨by simp [step, hl], by simp [step, hl, he], by simp [step, hl],
    fun fs => by simp [step, hl], fun e' => by simp [step, hl], fun hv => ?_⟩
  simp [run, step, hl, he, hv, ViewMode.toggle]

/-- Claim C6 witness: the theorem instantiated at a loading remote view
with an empty cache and the failure message `boom`. -/
theorem mds_C6_witness :
    (UiState.mk 0 .driveView [] true).isDriveLoading = true ∧
    (step [] (UiState.mk 0 .driveView [] true) (.fetchRejected "boom")).2
      = [.feedback "error" "[MdsBrowser] Failed to list Drive files: boom"] :=
  ⟨rfl, by
    have h := (mds_C6 [] (UiState.mk 0 .driveView [] true) "boom" rfl rfl).1
    simpa using h⟩

/-- Helper: the strict lexicographic order is irreflexive. -/
theorem charListLT_irrefl : ∀ as, charListLT as as = false
  | [] => rfl
  | a :: as => by
      simp [charListLT, charListLT_irrefl as]

/-- Helper: the strict lexicographic order is transitive. -/
theorem charListLT_trans : ∀ as bs cs, charListLT as bs = true →
    charListLT bs cs = true → charListLT as cs = true
  | [], bs, cs, h1, h2 => by
      cases bs with
      | nil => simp [charListLT] at h1
      | cons b bs' =>
          cases cs with
          | nil => simp [charListLT] at h2
          | cons c cs' => simp [charListLT]
  | a :: as, bs, cs, h1, h2 => by
      cases bs with
      | nil => simp [charListLT] at h1
      | cons b bs' =>
          cases cs with
          | nil => simp [charListLT] at h2
          | cons c cs' =>
              simp only [charListLT, Bool.or_eq_true, Bool.and_eq_true,
                decide_eq_true_eq, beq_iff_eq] at h1 h2 ⊢
              rcases h1 with h1 | ⟨rfl, h1⟩
              · rcases h2 with h2 | ⟨rfl, h2⟩
                · exact Or.inl (lt_trans h1 h2)
                · exact Or.inl h1
              · rcases h2 with h2 | ⟨rfl, h2⟩
                · exact Or.inl h2
                · exact Or.inr ⟨rfl, charListLT_trans as bs' cs' h1 h2⟩

/-- Helper: the strict lexicographic order is connex on distinct lists. -/
theorem charListLT_connex : ∀ as bs, as ≠ bs →
    (charListLT as bs || charListLT bs as) = true
  | [], [], h => absurd rfl h
  | [], _ :: _, _ => by simp [charListLT]
  | _ :: _, [], _ => by simp [charListLT]
  | a :: as, b :: bs, h => by
      rcases lt_trichotomy a b with hab | rfl | hab
      · simp [charListLT, hab]
      · have hne : as ≠ bs := fun he => h (by rw [he])
        have hrec := charListLT_connex as bs hne
        simp only [charListLT, lt_irrefl, decide_False, Bool.false_or,
          beq_self_eq_true, Bool.true_and] at *
        exact hrec
      · simp [charListLT, hab]

/-- Helper: the strict lexicographic order is asymmetric. -/
theorem charListLT_asymm (as bs : List Char) (h : charListLT as bs = true) :
    charListLT bs as = false := by
  cases hbs : charListLT bs as
  · rfl
  · have := charListLT_trans as bs as h hbs
    rw [charListLT_irrefl as] at this
    cases this

/-- Helper: the boolean lexicographic order agrees with the `List.lt`
order underlying Lean's `String` order. -/
theorem charListLT_iff : ∀ as bs : List Char, charListLT as bs = true ↔ as < bs
  | [], [] => ⟨fun h => by simp [charListLT] at h, fun h => by cases h⟩
  | [], b :: bs => ⟨fun _ => List.Lex.nil, fun _ => rfl⟩
  | a :: as, [] => ⟨fun h => by simp [charListLT] at h, fun h => by cases h⟩
  | a :: as, b :: bs => by
      simp only [charListLT, Bool.or_eq_true, Bool.and_eq_true,
        decide_eq_true_eq, beq_iff_eq]
      constructor
      · rintro (hab | ⟨rfl, h⟩)
        · exact List.Lex.rel hab
        · exact List.Lex.cons ((charListLT_iff as bs).mp h)
      · intro h
        cases h with
        | cons h => exact Or.inr ⟨rfl, (charListLT_iff as bs).mpr h⟩
        | rel h => exact Or.inl h

/-- Helper: the boolean string order agrees with Lean's `String` order. -/
theorem strLT_iff (a b : String) : strLT a b = true ↔ a < b :=
  (charListLT_iff a.data b.data).trans String.lt_iff_toList_lt.symm

/-- Helper: the reflexive string order is transitive. -/
theorem strLE_trans (a b c : String) (h1 : strLE a b = true)
    (h2 : strLE b c = true) : strLE a c = true := by
  have h1' : charListLT b.data a.data = false := by simpa [strLE, strLT] using h1
  have h2' : charListLT c.data b.data = false := by simpa [strLE, strLT] using h2
  have hca : charListLT c.data a.data = false := by
    cases hq : charListLT c.data a.data
    · rfl
    · by_cases hbc : b.data = c.data
      · rw [← hbc] at hq
        rw [hq] at h1'
        cases h1'
      · have hcon := charListLT_connex b.data c.data hbc
        rw [h2', Bool.or_false] at hcon
        have := charListLT_trans b.data c.data a.data hcon hq
        rw [this] at h1'
        cases h1'
  simp [strLE, strLT, hca]

/-- Helper: the sort comparator is transitive. -/
theorem entryLE_trans (a b c : FileEntry) (h1 : entryLE a b = true)
    (h2 : entryLE b c = true) : entryLE a c = true := by
  by_cases hab : a.type = b.type <;> by_cases hbc : b.type = c.type
  · rw [entryLE, if_pos hab] at h1
    rw [entryLE, if_pos hbc] at h2
    rw [entryLE, if_pos (hab.trans hbc)]
    exact strLE_trans _ _ _ h1 h2
  · rw [entryLE, if_neg hbc] at h2
    rw [entryLE, if_neg (hab ▸ hbc)]
    rwa [hab]
  · rw [entryLE, if_neg hab] at h1
    rw [entryLE, if_neg (hbc ▸ hab)]
    rwa [← hbc]
  · rw [entryLE, if_neg hab] at h1
    rw [entryLE, if_neg hbc] at h2
    have htrans := charListLT_trans _ _ _ h1 h2
    have hac : a.type ≠ c.type := by
      intro he
      have := charListLT_asymm _ _ h1
      rw [← he] at h2
      have h2'' : charListLT b.type.data a.type.data = true := h2
      rw [this] at h2''
      cases h2''
    rw [entryLE, if_neg hac]
    exact htrans

/-- Helper: the sort comparator is total. -/
theorem entryLE_total (a b : FileEntry) : (entryLE a b || entryLE b a) = true := by
  by_cases hab : a.type = b.type
  · rw [entryLE, if_pos hab, entryLE, if_pos hab.symm]
    cases h : charListLT b.path.data a.path.data
    · simp [strLE, strLT, h]
    · have := charListLT_asymm _ _ h
      simp [strLE, strLT, h, this]
  · rw [entryLE, if_neg hab, entryLE, if_neg (Ne.symm hab)]
    have hdne : a.type.data ≠ b.type.data := fun h => hab (String.ext h)
    exact charListLT_connex a.type.data b.type.data hdne

/-- Claim C4: for every set of known document paths and every set of
registered agent backing paths, the resolved local list contains no two
entries with the same path, and it is ordered with the kind tag as the
primary key and the path as the secondary key, both lexicographic. -/
theorem mds_C4 (mem ag : List String) :
    ((localFiles mem ag).map FileEntry.path).Nodup ∧
    (localFiles mem ag).Pairwise (fun x y =>
      x.type < y.type ∨ (x.type = y.type ∧ x.path < y.path)) := by
  have hperm : (localFiles mem ag).Perm
      (((mem ++ ag).dedup).map fun p =>
        ({ path := p, type := classify ag p } : FileEntry)) := by
    simpa [localFiles] using
      List.mergeSort_perm (((mem ++ ag).dedup).map fun p =>
        ({ path := p, type := classify ag p } : FileEntry)) entryLE
  have hmapped : ∀ l : List String, ((l.map fun p =>
      ({ path := p, type := classify ag p } : FileEntry)).map FileEntry.path) = l := by
    intro l
    induction l with
    | nil => rfl
    | cons a l ih => simp only [List.map_cons, ih]
  have hnd : ((localFiles mem ag).map FileEntry.path).Nodup := by
    have h0 := List.nodup_dedup (mem ++ ag)
    rw [← hmapped ((mem ++ ag).dedup)] at h0
    exact h0.perm (hperm.map FileEntry.path).symm
  refine ⟨hnd, ?_⟩
  have hsort : (localFiles mem ag).Pairwise (fun x y => entryLE x y = true) := by
    simpa [localFiles] using
      @List.sorted_mergeSort FileEntry entryLE
        (fun x y z => entryLE_trans x y z) (fun x y => entryLE_total x y)
        (((mem ++ ag).dedup).map fun p =>
          ({ path := p, type := classify ag p } : FileEntry))
  have hpw : (localFiles mem ag).Pairwise (fun x y => x.path ≠ y.path) :=
    List.pairwise_map.mp hnd
  refine (hsort.and hpw).imp ?_
  rintro x y ⟨hle, hne⟩
  by_cases ht : x.type = y.type
  · right
    refine ⟨ht, ?_⟩
    rw [entryLE, if_pos ht] at hle
    have hdne : x.path.data ≠ y.path.data := fun h => hne (String.ext h)
    have hcon := charListLT_connex x.path.data y.path.data hdne
    have hyx : charListLT y.path.data x.path.data = false := by
      simpa [strLE, strLT] using hle
    rw [hyx, Bool.or_false] at hcon
    exact (strLT_iff x.path y.path).mp hcon
  · left
    rw [entryLE, if_neg ht] at hle
    exact (strLT_iff x.type y.type).mp hle

/-- Claim C8: every path present in the registered-definitions
backing-path set is classified `Agent` by the resolver, regardless of
whether its name ends with an agent-file marker suffix. -/
theorem mds_C8 (mem ag : List String) (p : String) (hp : p ∈ ag) :
    ∀ e ∈ localFiles mem ag, e.path = p → e.type = "Agent" := by
  intro e he hpath
  have he2 : e ∈ (((mem ++ ag).dedup).map fun q =>
      ({ path := q, type := classify ag q } : FileEntry)).mergeSort entryLE := he
  obtain ⟨q, _, rfl⟩ := List.mem_map.mp (List.mem_mergeSort.mp he2)
  have hq : q = p := hpath
  subst hq
  show classify ag q = "Agent"
  simp only [classify]
  rw [if_pos (by simp [hp])]

/-- Claim C8 witness: the theorem instantiated at a registered backing
path whose name does not end with an agent marker. -/
theorem mds_C8_witness :
    "/a/notes.md" ∈ ["/a/notes.md"] ∧
    (∀ e ∈ localFiles [] ["/a/notes.md"], e.path = "/a/notes.md" →
      e.type = "Agent") :=
  ⟨by decide, mds_C8 [] ["/a/notes.md"] "/a/notes.md" (by decide)⟩
